import Mathlib

/-!
Verification of the MedRAX volumetric slice-extraction pipeline.

Shallow embedding of the two entry points:
* `src/medrax/tools/nifti.py` — the single-slice driver (`NiftiProcessorTool`):
  `_rotate_image`, `_process_nifti`, `_run`.
* `src/medrax/tools/nifti2image.py` — the batch converter `convert_nii_to_png`.

Modelling conventions:
* numpy floating-point arrays are modelled with exact rational entries (ℚ);
  float rounding is not modelled.
* A 2-D array is a `Plane` (dependent function over `Fin` indices).
* Python exceptions are modelled with `Except PyError`; the filesystem side
  effects of the batch converter are recorded as an explicit trace of
  `FsOp` operations performed before the function returns or raises.
* External collaborators (nibabel's `load`/`get_fdata`, `PIL.Image.save`,
  `os.path.exists`, `os.path.abspath`, the random hex suffix) are supplied
  as environment records, since their behaviour is outside the core.
-/

/-- A 2-D numeric array (one extracted plane), entries modelled in ℚ. -/
structure Plane where
  rows : Nat
  cols : Nat
  data : Fin rows → Fin cols → ℚ

/-- An 8-bit image plane, the result of `astype(np.uint8)`: entries are
naturals below 256. -/
structure Plane8 where
  rows : Nat
  cols : Nat
  data : Fin rows → Fin cols → Nat

/-- `numpy.rot90` with `k = 1`: one counter-clockwise quarter turn.
`rot90(a)[i, j] = a[j, n-1-i]` for `a` of shape `(m, n)`. -/
def rot90 (p : Plane) : Plane where
  rows := p.cols
  cols := p.rows
  data := fun i j => p.data j ⟨p.cols - 1 - i.val, by have := i.isLt; omega⟩

/-- Four quarter turns restore the plane bit-identically. -/
theorem rot90_four (p : Plane) : rot90 (rot90 (rot90 (rot90 p))) = p := by
  obtain ⟨r, c, d⟩ := p
  simp only [rot90]
  congr 1
  funext i j
  have hi : r - 1 - (r - 1 - i.val) = i.val := by have := i.isLt; omega
  have hj : c - 1 - (c - 1 - j.val) = j.val := by have := j.isLt; omega
  congr 1
  · exact Fin.ext hi
  · exact Fin.ext hj

/-- Iterating `rot90` is 4-periodic; this is why `numpy.rot90`'s internal
`k %= 4` shortcut agrees with literally applying `k` quarter turns. -/
theorem rot90_iterate_mod (k : Nat) (p : Plane) :
    rot90^[k] p = rot90^[k % 4] p := by
  induction k using Nat.strong_induction_on with
  | _ k ih =>
    rcases Nat.lt_or_ge k 4 with h | h
    · rw [Nat.mod_eq_of_lt h]
    · obtain ⟨m, rfl⟩ : ∃ m, k = m + 4 := ⟨k - 4, by omega⟩
      have h4 : rot90^[4] p = p := rot90_four p
      calc rot90^[m + 4] p = rot90^[m] (rot90^[4] p) := by
            rw [Function.iterate_add_apply]
        _ = rot90^[m] p := by rw [h4]
        _ = rot90^[m % 4] p := ih m (by omega)
        _ = rot90^[(m + 4) % 4] p := by rw [Nat.add_mod_right]

/-- `NiftiProcessorTool._rotate_image`: `rotations = rotation_angle // 90`
followed by `np.rot90(img_array, k=rotations)` (k quarter turns). -/
def rotate_image (rotation_angle : Nat) (p : Plane) : Plane :=
  rot90^[rotation_angle / 90] p

/-- Minimum entry of a plane (`plane.min()`), 0 on an empty plane
(numpy raises there; callers guard emptiness separately). -/
def planeMin (p : Plane) : ℚ :=
  if h : 0 < p.rows ∧ 0 < p.cols then
    have : Nonempty (Fin p.rows × Fin p.cols) := ⟨(⟨0, h.1⟩, ⟨0, h.2⟩)⟩
    (Finset.univ : Finset (Fin p.rows × Fin p.cols)).inf'
      Finset.univ_nonempty (fun ij => p.data ij.1 ij.2)
  else 0

/-- Maximum entry of a plane (`plane.max()`), 0 on an empty plane. -/
def planeMax (p : Plane) : ℚ :=
  if h : 0 < p.rows ∧ 0 < p.cols then
    have : Nonempty (Fin p.rows × Fin p.cols) := ⟨(⟨0, h.1⟩, ⟨0, h.2⟩)⟩
    (Finset.univ : Finset (Fin p.rows × Fin p.cols)).sup'
      Finset.univ_nonempty (fun ij => p.data ij.1 ij.2)
  else 0

theorem planeMin_le (p : Plane) (a : Fin p.rows) (b : Fin p.cols) :
    planeMin p ≤ p.data a b := by
  have h : 0 < p.rows ∧ 0 < p.cols := ⟨a.pos, b.pos⟩
  rw [planeMin, dif_pos h]
  exact Finset.inf'_le _ (Finset.mem_univ (a, b))

theorem le_planeMax (p : Plane) (a : Fin p.rows) (b : Fin p.cols) :
    p.data a b ≤ planeMax p := by
  have h : 0 < p.rows ∧ 0 < p.cols := ⟨a.pos, b.pos⟩
  rw [planeMax, dif_pos h]
  apply Finset.le_sup' (fun ij => p.data ij.1 ij.2) (Finset.mem_univ (a, b))

/-- The C cast behind `astype(np.uint8)` for a non-negative in-range value:
truncation toward zero, reduced mod 256. All in-contract uses are within
[0, 255]; out-of-range float-to-uint8 casts are implementation-defined in
the source and are not relied upon. -/
def uint8cast (q : ℚ) : Nat :=
  (Int.toNat ⌊q⌋) % 256

/-- The normalized rational value of one cell before the uint8 cast:
`(x - min) / (max - min) * 255`. (ℚ division by zero yields 0, standing in
for the implementation-defined constant-plane result.) -/
def normValue (p : Plane) (a : Fin p.rows) (b : Fin p.cols) : ℚ :=
  (p.data a b - planeMin p) / (planeMax p - planeMin p) * 255

inductive PyError where
  | fileNotFound (msg : String)
  | valueError (msg : String)
  | indexError (msg : String)
  | unboundLocal (msg : String)
  | ioError (msg : String)
deriving Repr, DecidableEq

/-- `str(e)` on a Python exception: the message. -/
def pyStr : PyError → String
  | .fileNotFound m => m
  | .valueError m => m
  | .indexError m => m
  | .unboundLocal m => m
  | .ioError m => m

/-- The intensity normalizer of `_process_nifti`:
`((plane - plane.min()) / (plane.max() - plane.min()) * 255).astype(np.uint8)`.
numpy raises `ValueError` when reducing an empty array. -/
def normalize_plane (p : Plane) : Except PyError Plane8 :=
  if p.rows = 0 ∨ p.cols = 0 then
    .error (.valueError "zero-size array to reduction operation minimum which has no identity")
  else
    .ok ⟨p.rows, p.cols, fun a b => uint8cast (normValue p a b)⟩

/-- A loaded volumetric array: rank 3 or rank 4 (the loader contract admits
only these ranks). Axes 0,1 are in-plane, axis 2 is the slice axis, axis 3
(when present) is the volume/timepoint axis. -/
inductive Volume where
  | v3 (nx ny nz : Nat) (data : Fin nx → Fin ny → Fin nz → ℚ)
  | v4 (nx ny nz nw : Nat) (data : Fin nx → Fin ny → Fin nz → Fin nw → ℚ)

/-- `len(img_array.shape)`. -/
def Volume.ndim : Volume → Nat
  | .v3 .. => 3
  | .v4 .. => 4

/-- `img_array.shape` as a list of axis lengths. -/
def Volume.shape : Volume → List Nat
  | .v3 nx ny nz _ => [nx, ny, nz]
  | .v4 nx ny nz nw _ => [nx, ny, nz, nw]

/-- Result of `nib.load(path)` + `get_fdata()`: the voxel array plus the
affine matrix and the header mapping (carried through verbatim). -/
structure NiftiImage where
  vol : Volume
  affine : List (List ℚ)
  header : List (String × String)

/-- The slice selection of `_process_nifti`: `img_array[:, :, 0, 0]` for 4-D
arrays, `img_array[:, :, 0]` for 3-D arrays. Indexing an axis of length 0
raises `IndexError` in numpy. -/
def selectSlice : Volume → Except PyError Plane
  | .v3 nx ny nz d =>
      if h : 0 < nz then .ok ⟨nx, ny, fun i j => d i j ⟨0, h⟩⟩
      else .error (.indexError "index 0 is out of bounds for axis 2 with size 0")
  | .v4 nx ny nz nw d =>
      if h : 0 < nz ∧ 0 < nw then
        .ok ⟨nx, ny, fun i j => d i j ⟨0, h.1⟩ ⟨0, h.2⟩⟩
      else .error (.indexError "index 0 is out of bounds")

/-- A value stored in a metadata dictionary. -/
inductive MValue where
  | s (v : String)
  | n (v : Nat)
  | shape (v : List Nat)
  | affine (v : List (List ℚ))
  | header (v : List (String × String))
deriving DecidableEq

/-- A Python dict with string keys, in insertion order. -/
abbrev Metadata := List (String × MValue)

/-- Dictionary lookup (`meta["key"]` / key-presence). -/
def mlookup (k : String) : Metadata → Option MValue
  | [] => none
  | (k', v) :: rest => if k' = k then some v else mlookup k rest

/-- The metadata dict built by `_process_nifti` before the driver adds its
fields. -/
def mkMeta (img : NiftiImage) : Metadata :=
  [("dimensions", .n img.vol.ndim),
   ("shape", .shape img.vol.shape),
   ("affine", .affine img.affine),
   ("header_info", .header img.header)]

/-- Ambient collaborators of the single-slice driver: the tool's temp
directory, the random hex suffix drawn this call, nibabel's loader, and
`PIL.Image.save` (each fallible step returns `Except`). -/
structure Env where
  temp_dir : String
  hex8 : String
  loadFile : String → Except PyError NiftiImage
  saveImage : String → Plane8 → Except PyError Unit

/-- `_process_nifti`: load, build metadata, select the first slice, rotate,
normalize. Any step may raise; the first raise aborts the rest. -/
def process_nifti (env : Env) (nifti_path : String) (rotation_angle : Nat) :
    Except PyError (Plane8 × Metadata) :=
  match env.loadFile nifti_path with
  | .error e => .error e
  | .ok img =>
      match selectSlice img.vol with
      | .error e => .error e
      | .ok sl =>
          match normalize_plane (rotate_image rotation_angle sl) with
          | .error e => .error e
          | .ok out => .ok (out, mkMeta img)

/-- The PNG path written by the driver:
`temp_dir / "processed_nifti_<8-hex>.png"`. -/
def outputPath (env : Env) : String :=
  env.temp_dir ++ "/processed_nifti_" ++ env.hex8 ++ ".png"

/-- The body of `_run`'s `try` block: process, then save the image. -/
def run_pipeline (env : Env) (nifti_path : String) (rotation_angle : Nat) :
    Except PyError (String × Metadata) :=
  match process_nifti env nifti_path rotation_angle with
  | .error e => .error e
  | .ok (img8, meta) =>
      match env.saveImage (outputPath env) img8 with
      | .error e => .error e
      | .ok _ => .ok (outputPath env, meta)

/-- The metadata returned by `_run`'s `except` branch. -/
def failMeta (nifti_path : String) (e : PyError) : Metadata :=
  [("nifti_path", .s nifti_path),
   ("analysis_status", .s "failed"),
   ("error_details", .s (pyStr e))]

/-- `NiftiProcessorTool._run`: returns `(output, metadata)`, converting any
exception of the pipeline into a structured failed result. On success the
driver updates the metadata dict with its own fields (all four keys are
fresh, so `dict.update` appends them in order). -/
def run_tool (env : Env) (nifti_path : String) (rotation_angle : Nat) :
    (List (String × String)) × Metadata :=
  match run_pipeline env nifti_path rotation_angle with
  | .ok (out_path, meta) =>
      ([("image_path", out_path)],
       meta ++
        [("original_path", .s nifti_path),
         ("output_path", .s out_path),
         ("rotation_angle", .n rotation_angle),
         ("analysis_status", .s "completed")])
  | .error e =>
      ([("error", pyStr e)], failMeta nifti_path e)

/-- `str.endswith` on character content (Python compares code points). -/
def endsWithPy (s suffix : String) : Bool :=
  suffix.data.isSuffixOf s.data

/-- `os.path.basename` for POSIX paths: the component after the last `/`. -/
def basenameOf (p : String) : String :=
  (p.splitOn "/").getLastD p

/-- `fname.split('.', 1)[0]`: the basename truncated at the first `.`
(the whole string when it holds no `.`). -/
def stemOf (fname : String) : String :=
  (fname.splitOn ".").headD fname

/-- `os.path.dirname` for POSIX paths: everything before the last `/`. -/
def dirnameOf (p : String) : String :=
  String.intercalate "/" (p.splitOn "/").dropLast

/-- `str(n).zfill(w)`: pad the decimal representation on the left with `0`
up to width `w`. -/
def zfill (w : Nat) (n : Nat) : String :=
  let s := toString n
  if w ≤ s.length then s else String.mk (List.replicate (w - s.length) '0') ++ s

/-- Ambient collaborators of the batch converter: `os.path.exists`,
`os.path.abspath` (the ambient working directory), and nibabel's loader. -/
structure BatchEnv where
  path_exists : String → Bool
  abspath : String → String
  loadFile : String → Except PyError NiftiImage

/-- A filesystem / loader side effect of the batch converter, in program
order: `os.makedirs`, `nibabel.load`, or `matplotlib.image.imsave`. -/
inductive FsOp where
  | mkdir (dir : String)
  | loadCall (path : String)
  | write (path : String) (data : Plane)

/-- The rotation branch of the batch loop: `data` is assigned only for
angles 90, 180, 270 (one, two, three quarter turns); any other angle leaves
`data` unbound, so the later `imsave(image_name, data, ...)` raises
`UnboundLocalError` (modelled as `none`). -/
def rotB (rotation_angle : Int) (p : Plane) : Option Plane :=
  if rotation_angle = 90 then some (rot90 p)
  else if rotation_angle = 180 then some (rot90 (rot90 p))
  else if rotation_angle = 270 then some (rot90 (rot90 (rot90 p)))
  else none

/-- The message of the `UnboundLocalError` raised when no rotation branch
assigned `data`. -/
def unboundMsg : String :=
  "cannot access local variable 'data' where it is not associated with a value"

/-- One pass of `for current_slice in range(total_slices)`: rotate the
plane at each index and write it under its name; raise at the first index
whose rotation branch left `data` unbound. Returns the effect trace and
the outcome. -/
def writeLoop {n : Nat} (rotation_angle : Int) (nameOf : Fin n → String)
    (planeOf : Fin n → Plane) : List (Fin n) → List FsOp × Except PyError Unit
  | [] => ([], .ok ())
  | s :: rest =>
      match rotB rotation_angle (planeOf s) with
      | none => ([], .error (.unboundLocal unboundMsg))
      | some d =>
          let next := writeLoop rotation_angle nameOf planeOf rest
          (FsOp.write (nameOf s) d :: next.1, next.2)

/-- The outer `for current_volume in range(total_volumes)` of the 4-D
branch: run the slice loop once per volume, in volume-major order,
stopping at the first failure. -/
def volLoop {nz nw : Nat} (rotation_angle : Int)
    (nameOf : Fin nw → Fin nz → String)
    (planeOf : Fin nw → Fin nz → Plane) :
    List (Fin nw) → List FsOp × Except PyError Unit
  | [] => ([], .ok ())
  | w :: rest =>
      let inner :=
        writeLoop rotation_angle (nameOf w) (planeOf w) (List.finRange nz)
      match inner.2 with
      | .error e => (inner.1, .error e)
      | .ok () =>
          let next := volLoop rotation_angle nameOf planeOf rest
          (inner.1 ++ next.1, next.2)

/-- The output directory of `convert_nii_to_png`:
`<abs(output_dir_path)>/<stem>` when an output directory is supplied,
`<dir-of-input>/<stem>` otherwise (`os.path.join` on POSIX). -/
def outputDirOf (env : BatchEnv) (file_path : String)
    (output_dir_path : Option String) : String :=
  let stem := stemOf (basenameOf file_path)
  match output_dir_path with
  | none => dirnameOf (env.abspath file_path) ++ "/" ++ stem
  | some odp => env.abspath odp ++ "/" ++ stem

/-- The per-slice filename of the 3-D branch:
`<stem>_z<slice+1 zero-padded to 3>.png`, joined under the output
directory. `s` is the 0-based slice index. -/
def sliceName3 (output_dir stem : String) (s : Nat) : String :=
  output_dir ++ "/" ++ stem ++ "_z" ++ zfill 3 (s + 1) ++ ".png"

/-- The per-plane filename of the 4-D branch:
`<stem>_vol<volume+1>_z<slice+1 zero-padded to 3>.png`. `w` and `s` are the
0-based volume and slice indices. -/
def sliceName4 (output_dir stem : String) (w s : Nat) : String :=
  output_dir ++ "/" ++ stem ++ "_vol" ++ toString (w + 1) ++ "_z" ++
    zfill 3 (s + 1) ++ ".png"

/-- `convert_nii_to_png(file_path, output_dir_path, rotation_angle)`:
validates existence then extension, creates the output directory, loads the
volume, and writes every plane. Returns the ordered effect trace together
with the Python outcome (the output directory, or the exception raised). -/
def convert_nii_to_png (env : BatchEnv) (file_path : String)
    (output_dir_path : Option String) (rotation_angle : Int) :
    List FsOp × Except PyError String :=
  if env.path_exists file_path = false then
    ([], .error (.fileNotFound ("Input file not found: " ++ file_path)))
  else if !(endsWithPy file_path ".nii" || endsWithPy file_path ".nii.gz") then
    ([], .error (.valueError
      ("Input file must be a NIfTI file (.nii or .nii.gz): " ++ file_path)))
  else
    let fname_noext := stemOf (basenameOf file_path)
    let output_dir := outputDirOf env file_path output_dir_path
    let pre := [FsOp.mkdir output_dir, FsOp.loadCall file_path]
    match env.loadFile file_path with
    | .error e => (pre, .error e)
    | .ok img =>
        match img.vol with
        | .v3 nx ny nz d =>
            let body := writeLoop rotation_angle
              (fun s => sliceName3 output_dir fname_noext s.val)
              (fun s => ⟨nx, ny, fun i j => d i j s⟩)
              (List.finRange nz)
            (pre ++ body.1, body.2.map fun _ => output_dir)
        | .v4 nx ny nz nw d =>
            let body := volLoop rotation_angle
              (fun w s => sliceName4 output_dir fname_noext w.val s.val)
              (fun w s => ⟨nx, ny, fun i j => d i j s w⟩)
              (List.finRange nw)
            (pre ++ body.1, body.2.map fun _ => output_dir)

/-- The paths written by a trace, in order. -/
def writeNames (ops : List FsOp) : List String :=
  ops.filterMap fun op =>
    match op with
    | .write p _ => some p
    | _ => none

/-- C5: applying the orientation normalizer with an angle of 360 degrees
(four applications of the canonical 90-degree rotation, since 360 / 90 = 4)
returns a plane bit-identical to the unrotated input. -/
theorem rotate_image_360_roundtrip (p : Plane) : rotate_image 360 p = p := by
  have h4 : rotate_image 360 p = rot90 (rot90 (rot90 (rot90 p))) := by
    simp [rotate_image, Function.iterate_succ_apply']
  rw [h4, rot90_four]

/-- C6: the single-slice extraction always selects slice index 0 and, for
4-D volumes, volume index 0 (the plane `[:, :, 0, 0]`); no other slice
influences the extracted plane (two 4-D volumes agreeing on slice (0,0)
extract identically), and 3-D volumes yield the plane `[:, :, 0]`. -/
theorem select_first_slice_only {nx ny nz nw : Nat}
    (d d' : Fin nx → Fin ny → Fin nz → Fin nw → ℚ)
    (e : Fin nx → Fin ny → Fin nz → ℚ)
    (hz : 0 < nz) (hw : 0 < nw)
    (hagree : ∀ i j, d i j ⟨0, hz⟩ ⟨0, hw⟩ = d' i j ⟨0, hz⟩ ⟨0, hw⟩) :
    selectSlice (.v4 nx ny nz nw d) =
      .ok ⟨nx, ny, fun i j => d i j ⟨0, hz⟩ ⟨0, hw⟩⟩ ∧
    selectSlice (.v4 nx ny nz nw d') = selectSlice (.v4 nx ny nz nw d) ∧
    selectSlice (.v3 nx ny nz e) = .ok ⟨nx, ny, fun i j => e i j ⟨0, hz⟩⟩ := by
  refine ⟨?_, ?_, ?_⟩
  · rw [selectSlice, dif_pos ⟨hz, hw⟩]
  · rw [selectSlice, selectSlice, dif_pos ⟨hz, hw⟩, dif_pos ⟨hz, hw⟩]
    simp only [Except.ok.injEq, Plane.mk.injEq, heq_eq_eq, true_and]
    funext i j
    exact (hagree i j).symm
  · rw [selectSlice, dif_pos hz]

/-- C4: for a plane with at least two distinct values, the normalization
`(x - min) / (max - min) * 255` cast to uint8 stays within [0, 255]
(already before the cast), is 0 exactly at every position holding the
plane's minimum, and 255 at every position holding the plane's maximum. -/
theorem normalize_bounds_extremes (p : Plane) (a a' : Fin p.rows)
    (b b' : Fin p.cols) (hne : p.data a b ≠ p.data a' b') :
    normalize_plane p =
      .ok ⟨p.rows, p.cols, fun i j => uint8cast (normValue p i j)⟩ ∧
    (∀ i j, 0 ≤ normValue p i j ∧ normValue p i j ≤ 255) ∧
    (∀ i j, uint8cast (normValue p i j) ≤ 255) ∧
    (∀ i j, p.data i j = planeMin p → uint8cast (normValue p i j) = 0) ∧
    (∀ i j, p.data i j = planeMax p → uint8cast (normValue p i j) = 255) := by
  have hlt : planeMin p < planeMax p := by
    rcases hne.lt_or_lt with h | h
    · exact lt_of_le_of_lt (planeMin_le p a b)
        (lt_of_lt_of_le h (le_planeMax p a' b'))
    · exact lt_of_le_of_lt (planeMin_le p a' b')
        (lt_of_lt_of_le h (le_planeMax p a b))
  have hdpos : 0 < planeMax p - planeMin p := sub_pos.mpr hlt
  refine ⟨?_, ?_, ?_, ?_, ?_⟩
  · rw [normalize_plane, if_neg]
    push_neg
    exact ⟨a.pos.ne', b.pos.ne'⟩
  · intro i j
    constructor
    · exact mul_nonneg
        (div_nonneg (sub_nonneg.mpr (planeMin_le p i j)) hdpos.le)
        (by norm_num)
    · have h1 : (p.data i j - planeMin p) / (planeMax p - planeMin p) ≤ 1 :=
        (div_le_one hdpos).mpr (sub_le_sub_right (le_planeMax p i j) _)
      calc (p.data i j - planeMin p) / (planeMax p - planeMin p) * 255
          ≤ 1 * 255 := by
            exact mul_le_mul_of_nonneg_right h1 (by norm_num)
        _ = 255 := one_mul 255
  · intro i j
    exact Nat.le_of_lt_succ (Nat.mod_lt _ (by norm_num))
  · intro i j hmin
    rw [normValue, hmin, sub_self, zero_div, zero_mul]
    simp [uint8cast]
  · intro i j hmax
    rw [normValue, hmax, div_self (ne_of_gt hdpos), one_mul]
    decide

/-- A concrete 1×2 plane holding the two distinct values 0 and 1. -/
def wplane : Plane :=
  ⟨1, 2, fun _ j => if j.val = 0 then 0 else 1⟩

/-- Index 0 of the single row of `wplane`. -/
def wrow : Fin wplane.rows := ⟨0, Nat.one_pos⟩

/-- Column 0 of `wplane`. -/
def wcol0 : Fin wplane.cols := ⟨0, by norm_num [wplane]⟩

/-- Column 1 of `wplane`. -/
def wcol1 : Fin wplane.cols := ⟨1, by norm_num [wplane]⟩

/-- Witness for C4 at the concrete plane `wplane`. -/
theorem normalize_bounds_extremes_witness :
    wplane.data wrow wcol0 ≠ wplane.data wrow wcol1 ∧
    (normalize_plane wplane =
      .ok ⟨wplane.rows, wplane.cols,
            fun i j => uint8cast (normValue wplane i j)⟩ ∧
    (∀ i j, 0 ≤ normValue wplane i j ∧ normValue wplane i j ≤ 255) ∧
    (∀ i j, uint8cast (normValue wplane i j) ≤ 255) ∧
    (∀ i j, wplane.data i j = planeMin wplane →
      uint8cast (normValue wplane i j) = 0) ∧
    (∀ i j, wplane.data i j = planeMax wplane →
      uint8cast (normValue wplane i j) = 255)) :=
  ⟨by decide, normalize_bounds_extremes wplane wrow wrow wcol0 wcol1 (by decide)⟩

/-- C1: the single-slice driver always returns an `(output, metadata)`
pair (it never propagates an exception), and whenever any pipeline step
fails the metadata has `analysis_status = "failed"` and `error_details`
set to the stringified failure, while the output dictionary carries the
error string. -/
theorem run_tool_failure_contract (env : Env) (nifti_path : String)
    (rotation_angle : Nat) :
    (∃ out meta, run_tool env nifti_path rotation_angle = (out, meta)) ∧
    (∀ e, run_pipeline env nifti_path rotation_angle = .error e →
      run_tool env nifti_path rotation_angle =
        ([("error", pyStr e)], failMeta nifti_path e) ∧
      mlookup "analysis_status" (failMeta nifti_path e) = some (.s "failed") ∧
      mlookup "error_details" (failMeta nifti_path e) =
        some (.s (pyStr e))) := by
  refine ⟨⟨_, _, rfl⟩, ?_⟩
  intro e he
  refine ⟨?_, rfl, rfl⟩
  rw [run_tool, he]

/-- An environment whose loader always fails (e.g. an unparseable file). -/
def envLoadFail : Env :=
  ⟨"/tmp", "deadbeef", fun _ => .error (.ioError "boom"), fun _ _ => .ok ()⟩

/-- Witness for C1: a concrete failing load produces the structured
failed result. -/
theorem run_tool_failure_contract_witness :
    run_pipeline envLoadFail "scan.nii" 90 = .error (.ioError "boom") ∧
    run_tool envLoadFail "scan.nii" 90 =
      ([("error", pyStr (.ioError "boom"))],
       failMeta "scan.nii" (.ioError "boom")) :=
  ⟨rfl,
   ((run_tool_failure_contract envLoadFail "scan.nii" 90).2
     (.ioError "boom") rfl).1⟩

/-- C8: a 3-D all-constant volume of shape (4,4,2) processed by the
single-slice driver completes: status `"completed"`, an image path in the
output dictionary, and shape (4,4,2) in the metadata — the degenerate
constant-plane normalization does not cause a failure. -/
theorem constant_volume_completes (env : Env) (path : String) (c : ℚ)
    (aff : List (List ℚ)) (hdr : List (String × String))
    (hload : env.loadFile path = .ok ⟨.v3 4 4 2 (fun _ _ _ => c), aff, hdr⟩)
    (hsave : ∀ s p8, env.saveImage s p8 = .ok ()) :
    (run_tool env path 90).1 = [("image_path", outputPath env)] ∧
    mlookup "analysis_status" (run_tool env path 90).2 =
      some (.s "completed") ∧
    mlookup "shape" (run_tool env path 90).2 = some (.shape [4, 4, 2]) := by
  have hpipe : run_pipeline env path 90 =
      .ok (outputPath env,
           mkMeta ⟨.v3 4 4 2 (fun _ _ _ => c), aff, hdr⟩) := by
    rw [run_pipeline, process_nifti, hload]
    simp [selectSlice, rotate_image, normalize_plane, rot90, hsave]
  rw [run_tool, hpipe]
  refine ⟨rfl, ?_, ?_⟩ <;> simp [mkMeta, mlookup, Volume.shape, Volume.ndim]

/-- A concrete environment loading a constant 4×4×2 volume. -/
def envConst : Env :=
  ⟨"/tmp", "0a0a0a0a",
   fun _ => .ok ⟨.v3 4 4 2 (fun _ _ _ => 7), [], []⟩,
   fun _ _ => .ok ()⟩

/-- Witness for C8 at the concrete environment `envConst`. -/
theorem constant_volume_completes_witness :
    envConst.loadFile "scan.nii" =
      .ok ⟨.v3 4 4 2 (fun _ _ _ => 7), [], []⟩ ∧
    ((run_tool envConst "scan.nii" 90).1 =
      [("image_path", outputPath envConst)] ∧
    mlookup "analysis_status" (run_tool envConst "scan.nii" 90).2 =
      some (.s "completed") ∧
    mlookup "shape" (run_tool envConst "scan.nii" 90).2 =
      some (.shape [4, 4, 2])) :=
  ⟨rfl, constant_volume_completes envConst "scan.nii" 7 [] [] rfl
    (fun _ _ => rfl)⟩

/-- C9 (amended): `analysis_status` is always `"completed"` or `"failed"`;
on success the metadata includes `dimensions`, `shape`, `affine`,
`header_info` and `original_path`, with no `error_details`; on failure the
metadata is the reduced record `nifti_path` / `analysis_status` /
`error_details` (so the load-derived fields and `original_path` are
absent). -/
theorem process_nifti_ok_meta (env : Env) (path : String) (angle : Nat)
    (p8 : Plane8) (meta : Metadata)
    (h : process_nifti env path angle = .ok (p8, meta)) :
    ∃ img, env.loadFile path = .ok img ∧ meta = mkMeta img := by
  rw [process_nifti] at h
  split at h
  · cases h
  next img hl =>
    split at h
    · cases h
    next sl hsel =>
      split at h
      · cases h
      next out hn =>
        cases h
        exact ⟨img, hl, rfl⟩

theorem run_pipeline_ok_parts (env : Env) (path : String) (angle : Nat)
    (out_path : String) (meta : Metadata)
    (h : run_pipeline env path angle = .ok (out_path, meta)) :
    out_path = outputPath env ∧
    ∃ p8, process_nifti env path angle = .ok (p8, meta) := by
  rw [run_pipeline] at h
  split at h
  · cases h
  next img8 meta2 hq =>
    split at h
    · cases h
    next u hs =>
      cases h
      exact ⟨rfl, img8, hq⟩

/-- C9 (amended): `analysis_status` is always `"completed"` or `"failed"`;
on success the metadata includes `dimensions`, `shape`, `affine`,
`header_info` and `original_path`, with no `error_details`; on failure the
metadata is the reduced record `nifti_path` / `analysis_status` /
`error_details` (so the load-derived fields and `original_path` are
absent). -/
theorem run_tool_metadata_fields (env : Env) (nifti_path : String)
    (rotation_angle : Nat) :
    (mlookup "analysis_status" (run_tool env nifti_path rotation_angle).2 =
        some (.s "completed") ∨
      mlookup "analysis_status" (run_tool env nifti_path rotation_angle).2 =
        some (.s "failed")) ∧
    (match run_pipeline env nifti_path rotation_angle with
     | .ok _ =>
        (mlookup "dimensions"
          (run_tool env nifti_path rotation_angle).2).isSome = true ∧
        (mlookup "shape"
          (run_tool env nifti_path rotation_angle).2).isSome = true ∧
        (mlookup "affine"
          (run_tool env nifti_path rotation_angle).2).isSome = true ∧
        (mlookup "header_info"
          (run_tool env nifti_path rotation_angle).2).isSome = true ∧
        mlookup "original_path" (run_tool env nifti_path rotation_angle).2 =
          some (.s nifti_path) ∧
        mlookup "error_details"
          (run_tool env nifti_path rotation_angle).2 = none
     | .error e =>
        (run_tool env nifti_path rotation_angle).2 =
          failMeta nifti_path e) := by
  rcases hp : run_pipeline env nifti_path rotation_angle with e | r
  · refine ⟨Or.inr ?_, ?_⟩
    · rw [run_tool, hp]
      rfl
    · rw [run_tool, hp]
  · obtain ⟨out_path, meta⟩ := r
    obtain ⟨-, p8, hq⟩ := run_pipeline_ok_parts env nifti_path rotation_angle
      out_path meta hp
    obtain ⟨img, -, rfl⟩ := process_nifti_ok_meta env nifti_path
      rotation_angle p8 meta hq
    refine ⟨Or.inl ?_, ?_, ?_, ?_, ?_, ?_, ?_⟩ <;>
      rw [run_tool, hp] <;> simp [mkMeta, mlookup]

/-- Counterexample for C9 as stated: on a failing load, the returned
metadata holds neither the load-derived fields nor `original_path`. -/
theorem run_tool_metadata_fields_cex :
    mlookup "dimensions" (run_tool envLoadFail "scan.nii" 90).2 = none ∧
    mlookup "shape" (run_tool envLoadFail "scan.nii" 90).2 = none ∧
    mlookup "affine" (run_tool envLoadFail "scan.nii" 90).2 = none ∧
    mlookup "header_info" (run_tool envLoadFail "scan.nii" 90).2 = none ∧
    mlookup "original_path" (run_tool envLoadFail "scan.nii" 90).2 = none ∧
    mlookup "analysis_status" (run_tool envLoadFail "scan.nii" 90).2 =
      some (.s "failed") := by
  refine ⟨rfl, rfl, rfl, rfl, rfl, rfl⟩

theorem writeNames_cons_write (p : String) (d : Plane) (ops : List FsOp) :
    writeNames (.write p d :: ops) = p :: writeNames ops := rfl

theorem writeNames_cons_mkdir (dir : String) (ops : List FsOp) :
    writeNames (.mkdir dir :: ops) = writeNames ops := rfl

theorem writeNames_cons_load (path : String) (ops : List FsOp) :
    writeNames (.loadCall path :: ops) = writeNames ops := rfl

theorem writeNames_append (a b : List FsOp) :
    writeNames (a ++ b) = writeNames a ++ writeNames b :=
  List.filterMap_append ..

/-- Supported angles always take a rotation branch. -/
theorem rotB_ok (angle : Int)
    (hang : angle = 90 ∨ angle = 180 ∨ angle = 270) (p : Plane) :
    rotB angle p = some (rot90^[(angle.toNat / 90)] p) := by
  rcases hang with h | h | h <;> subst h <;> rfl

/-- For a supported angle, the slice loop writes one file per index, in
order, under the given names. -/
theorem writeLoop_ok {n : Nat} (angle : Int)
    (hang : angle = 90 ∨ angle = 180 ∨ angle = 270)
    (nameOf : Fin n → String) (planeOf : Fin n → Plane)
    (l : List (Fin n)) :
    (writeLoop angle nameOf planeOf l).2 = .ok () ∧
    writeNames (writeLoop angle nameOf planeOf l).1 = l.map nameOf := by
  induction l with
  | nil => exact ⟨rfl, rfl⟩
  | cons s rest ih =>
      rw [writeLoop, rotB_ok angle hang]
      exact ⟨ih.1, by rw [writeNames_cons_write, ih.2]; rfl⟩

/-- For a supported angle, the volume loop writes, volume-major, one file
per (volume, slice) pair. -/
theorem volLoop_ok {nz nw : Nat} (angle : Int)
    (hang : angle = 90 ∨ angle = 180 ∨ angle = 270)
    (nameOf : Fin nw → Fin nz → String)
    (planeOf : Fin nw → Fin nz → Plane) (l : List (Fin nw)) :
    (volLoop angle nameOf planeOf l).2 = .ok () ∧
    writeNames (volLoop angle nameOf planeOf l).1 =
      l.flatMap (fun w => (List.finRange nz).map (nameOf w)) := by
  induction l with
  | nil => exact ⟨rfl, rfl⟩
  | cons w rest ih =>
      have hin := writeLoop_ok angle hang (nameOf w) (planeOf w)
        (List.finRange nz)
      rw [volLoop, hin.1]
      refine ⟨ih.1, ?_⟩
      rw [writeNames_append, hin.2, ih.2, List.flatMap_cons]

/-- Mapping a Nat-valued function over `finRange` is mapping it over
`range`. -/
theorem finRange_map_val_comp {α : Type} {n : Nat} (f : Nat → α) :
    (List.finRange n).map (fun s => f s.val) = (List.range n).map f := by
  rw [← List.map_coe_finRange, List.map_map]
  rfl

/-- C2: the batch converter raises the typed not-found error for a missing
path before creating anything, and the typed format error for an existing
path without a recognized volumetric suffix before any load attempt; in
both cases the effect trace is empty (no directory made, no load, no plane
written). -/
theorem batch_precondition_checks (env : BatchEnv) (fp : String)
    (odp : Option String) (angle : Int) :
    (env.path_exists fp = false →
      convert_nii_to_png env fp odp angle =
        ([], .error (.fileNotFound ("Input file not found: " ++ fp)))) ∧
    (env.path_exists fp = true →
      (endsWithPy fp ".nii" || endsWithPy fp ".nii.gz") = false →
      convert_nii_to_png env fp odp angle =
        ([], .error (.valueError
          ("Input file must be a NIfTI file (.nii or .nii.gz): " ++ fp)))) := by
  constructor
  · intro h
    rw [convert_nii_to_png, if_pos h]
  · intro h hs
    rw [convert_nii_to_png, if_neg (by simp [h]), if_pos (by simp [hs])]

/-- A batch environment where no path exists. -/
def envNoFile : BatchEnv :=
  ⟨fun _ => false, id, fun _ => .error (.ioError "unreachable")⟩

/-- A batch environment where every path exists and decoding fails. -/
def envBadDecode : BatchEnv :=
  ⟨fun _ => true, id, fun _ => .error (.valueError "cannot decode")⟩

/-- Witness for C2 at concrete paths. -/
theorem batch_precondition_checks_witness :
    convert_nii_to_png envNoFile "missing.nii" none 90 =
      ([], .error (.fileNotFound ("Input file not found: " ++ "missing.nii"))) ∧
    convert_nii_to_png envBadDecode "file.txt" none 90 =
      ([], .error (.valueError
        ("Input file must be a NIfTI file (.nii or .nii.gz): " ++
          "file.txt"))) :=
  ⟨(batch_precondition_checks envNoFile "missing.nii" none 90).1 rfl,
   (batch_precondition_checks envBadDecode "file.txt" none 90).2 rfl
     (by decide)⟩

/-- C10: for an existing recognized path, the batch converter creates the
output directory before attempting the load, so when decoding fails the
trace still holds the directory creation (and the load attempt) and the
error propagates. -/
theorem batch_mkdir_before_load (env : BatchEnv) (fp : String)
    (odp : Option String) (angle : Int) (e : PyError)
    (hex : env.path_exists fp = true)
    (hsuf : (endsWithPy fp ".nii" || endsWithPy fp ".nii.gz") = true)
    (hload : env.loadFile fp = .error e) :
    convert_nii_to_png env fp odp angle =
      ([.mkdir (outputDirOf env fp odp), .loadCall fp], .error e) ∧
    FsOp.mkdir (outputDirOf env fp odp) ∈
      (convert_nii_to_png env fp odp angle).1 := by
  have h : convert_nii_to_png env fp odp angle =
      ([.mkdir (outputDirOf env fp odp), .loadCall fp], .error e) := by
    rw [convert_nii_to_png, if_neg (by simp [hex]), if_neg (by simp [hsuf]),
      hload]
  exact ⟨h, by rw [h]; exact List.mem_cons_self _ _⟩

/-- Witness for C10: a decode failure leaves the created directory in the
trace. -/
theorem batch_mkdir_before_load_witness :
    envBadDecode.loadFile "scan.nii" = .error (.valueError "cannot decode") ∧
    convert_nii_to_png envBadDecode "scan.nii" none 90 =
      ([.mkdir (outputDirOf envBadDecode "scan.nii" none),
        .loadCall "scan.nii"], .error (.valueError "cannot decode")) :=
  ⟨rfl,
   (batch_mkdir_before_load envBadDecode "scan.nii" none 90
     (.valueError "cannot decode") rfl (by decide) rfl).1⟩

/-- C3: for a supported rotation angle, the batch converter succeeds and
writes, in order: for a 3-D volume of shape (X,Y,Z), exactly Z files named
`<stem>_z<slice+1 zero-padded to 3>.png`; for a 4-D volume of shape
(X,Y,Z,W), exactly Z×W files named
`<stem>_vol<volume+1>_z<slice+1 zero-padded to 3>.png` in volume-major
order, the stem being the input basename truncated at the first `.`. -/
theorem batch_output_names (env : BatchEnv) (fp : String)
    (odp : Option String) (angle : Int) (img : NiftiImage)
    (hex : env.path_exists fp = true)
    (hsuf : (endsWithPy fp ".nii" || endsWithPy fp ".nii.gz") = true)
    (hload : env.loadFile fp = .ok img)
    (hang : angle = 90 ∨ angle = 180 ∨ angle = 270) :
    (convert_nii_to_png env fp odp angle).2 =
      .ok (outputDirOf env fp odp) ∧
    writeNames (convert_nii_to_png env fp odp angle).1 =
      (match img.vol with
       | .v3 _ _ nz _ => (List.range nz).map (fun s =>
            sliceName3 (outputDirOf env fp odp) (stemOf (basenameOf fp)) s)
       | .v4 _ _ nz nw _ => (List.range nw).flatMap (fun w =>
            (List.range nz).map (fun s =>
              sliceName4 (outputDirOf env fp odp) (stemOf (basenameOf fp))
                w s))) ∧
    (writeNames (convert_nii_to_png env fp odp angle).1).length =
      (match img.vol with
       | .v3 _ _ nz _ => nz
       | .v4 _ _ nz nw _ => nz * nw) := by
  obtain ⟨vol, aff, hdr⟩ := img
  rw [convert_nii_to_png, if_neg (by simp [hex]), if_neg (by simp [hsuf]),
    hload]
  cases vol with
  | v3 nx ny nz d =>
      dsimp only
      have h := writeLoop_ok angle hang
        (fun s : Fin nz =>
          sliceName3 (outputDirOf env fp odp) (stemOf (basenameOf fp)) s.val)
        (fun s => ⟨nx, ny, fun i j => d i j s⟩) (List.finRange nz)
      refine ⟨by rw [h.1]; rfl, ?_, ?_⟩
      · rw [writeNames_append, h.2]
        rw [finRange_map_val_comp
          (fun s => sliceName3 (outputDirOf env fp odp)
            (stemOf (basenameOf fp)) s)]
        rfl
      · rw [writeNames_append, h.2, List.length_append, List.length_map,
          List.length_finRange]
        simp [writeNames]
  | v4 nx ny nz nw d =>
      dsimp only
      have h := volLoop_ok angle hang
        (fun (w : Fin nw) (s : Fin nz) =>
          sliceName4 (outputDirOf env fp odp) (stemOf (basenameOf fp))
            w.val s.val)
        (fun w s => ⟨nx, ny, fun i j => d i j s w⟩) (List.finRange nw)
      have hinner : ∀ w : Fin nw,
          (List.finRange nz).map (fun s : Fin nz =>
            sliceName4 (outputDirOf env fp odp) (stemOf (basenameOf fp))
              w.val s.val) =
          (List.range nz).map (fun s =>
            sliceName4 (outputDirOf env fp odp) (stemOf (basenameOf fp))
              w.val s) :=
        fun w => finRange_map_val_comp
          (fun s => sliceName4 (outputDirOf env fp odp)
            (stemOf (basenameOf fp)) w.val s)
      refine ⟨by rw [h.1]; rfl, ?_, ?_⟩
      · rw [writeNames_append, h.2]
        simp only [show writeNames [FsOp.mkdir (outputDirOf env fp odp),
          FsOp.loadCall fp] = ([] : List String) from rfl, List.nil_append]
        calc (List.finRange nw).flatMap (fun w =>
                (List.finRange nz).map (fun s : Fin nz =>
                  sliceName4 (outputDirOf env fp odp)
                    (stemOf (basenameOf fp)) w.val s.val))
            = (List.finRange nw).flatMap (fun w =>
                (List.range nz).map (fun s =>
                  sliceName4 (outputDirOf env fp odp)
                    (stemOf (basenameOf fp)) w.val s)) :=
              List.flatMap_congr (fun w _ => hinner w)
          _ = (List.range nw).flatMap (fun w =>
                (List.range nz).map (fun s =>
                  sliceName4 (outputDirOf env fp odp)
                    (stemOf (basenameOf fp)) w s)) := by
              rw [List.flatMap, List.flatMap]
              rw [finRange_map_val_comp
                (fun w => (List.range nz).map (fun s =>
                  sliceName4 (outputDirOf env fp odp)
                    (stemOf (basenameOf fp)) w s))]
      · rw [writeNames_append, h.2, List.length_append, List.length_flatMap]
        have hconst : List.map
            (List.length ∘ fun w : Fin nw =>
              (List.finRange nz).map (fun s : Fin nz =>
                sliceName4 (outputDirOf env fp odp) (stemOf (basenameOf fp))
                  w.val s.val))
            (List.finRange nw) =
            List.replicate nw nz := by
          simp [Function.comp_def]
        rw [hconst, List.sum_replicate, smul_eq_mul]
        simp [writeNames, Nat.mul_comm]

/-- A batch environment loading a 1×1×2 all-zero 3-D volume. -/
def envVol3 : BatchEnv :=
  ⟨fun _ => true, id, fun _ => .ok ⟨.v3 1 1 2 (fun _ _ _ => 0), [], []⟩⟩

/-- Witness for C3 at a concrete 1×1×2 volume: exactly 2 files, named
`scan_z001.png`, `scan_z002.png`, in order. -/
theorem batch_output_names_witness :
    (convert_nii_to_png envVol3 "scan.nii" none 90).2 =
      .ok (outputDirOf envVol3 "scan.nii" none) ∧
    writeNames (convert_nii_to_png envVol3 "scan.nii" none 90).1 =
      (List.range 2).map (fun s =>
        sliceName3 (outputDirOf envVol3 "scan.nii" none)
          (stemOf (basenameOf "scan.nii")) s) ∧
    (writeNames (convert_nii_to_png envVol3 "scan.nii" none 90).1).length =
      2 :=
  batch_output_names envVol3 "scan.nii" none 90
    ⟨.v3 1 1 2 (fun _ _ _ => 0), [], []⟩ rfl (by decide) rfl (Or.inl rfl)

theorem rotB_unsupported (angle : Int)
    (hang : ¬(angle = 90 ∨ angle = 180 ∨ angle = 270)) (p : Plane) :
    rotB angle p = none := by
  push_neg at hang
  rw [rotB, if_neg hang.1, if_neg hang.2.1, if_neg hang.2.2]

theorem writeLoop_unsupported {n : Nat} (angle : Int)
    (hang : ¬(angle = 90 ∨ angle = 180 ∨ angle = 270))
    (nameOf : Fin n → String) (planeOf : Fin n → Plane)
    (s : Fin n) (rest : List (Fin n)) :
    writeLoop angle nameOf planeOf (s :: rest) =
      ([], .error (.unboundLocal unboundMsg)) := by
  rw [writeLoop, rotB_unsupported angle hang]

/-- Counterexample for C7 as stated: rotation angle 45 is outside the
supported set, yet the single-slice driver does not fail with a typed
invalid-parameter error — it completes (45 // 90 = 0 quarter turns). -/
theorem invalid_angle_cex :
    mlookup "analysis_status" (run_tool envConst "scan.nii" 45).2 =
      some (.s "completed") := by
  rfl

/-- C7 (amended): no typed invalid-parameter error exists. For an angle
outside {90, 180, 270} the batch converter fails with an untyped
`UnboundLocalError` at the first write of any volume holding at least one
plane (3-D with Z ≥ 1, or 4-D with Z ≥ 1 and W ≥ 1), with no plane
written, while the single-slice driver performs no angle validation at
all: whenever its pipeline succeeds, the result is `"completed"`,
whatever the angle. -/
theorem invalid_angle_not_typed (env : BatchEnv) (fp : String)
    (odp : Option String) (angle : Int) (img : NiftiImage)
    (hex : env.path_exists fp = true)
    (hsuf : (endsWithPy fp ".nii" || endsWithPy fp ".nii.gz") = true)
    (hload : env.loadFile fp = .ok img)
    (hplane : match img.vol with
      | .v3 _ _ nz _ => 0 < nz
      | .v4 _ _ nz nw _ => 0 < nz ∧ 0 < nw)
    (hang : ¬(angle = 90 ∨ angle = 180 ∨ angle = 270)) :
    (convert_nii_to_png env fp odp angle).2 =
      .error (.unboundLocal unboundMsg) ∧
    writeNames (convert_nii_to_png env fp odp angle).1 = [] ∧
    (∀ (senv : Env) (path : String) (a : Nat) (out_path : String)
        (meta : Metadata),
      run_pipeline senv path a = .ok (out_path, meta) →
      mlookup "analysis_status" (run_tool senv path a).2 =
        some (.s "completed")) := by
  have hsingle : ∀ (senv : Env) (path : String) (a : Nat)
      (out_path : String) (meta : Metadata),
      run_pipeline senv path a = .ok (out_path, meta) →
      mlookup "analysis_status" (run_tool senv path a).2 =
        some (.s "completed") := by
    intro senv path a out_path meta hok
    obtain ⟨-, p8, hq⟩ := run_pipeline_ok_parts senv path a out_path meta hok
    obtain ⟨img2, -, rfl⟩ := process_nifti_ok_meta senv path a p8 meta hq
    rw [run_tool, hok]
    simp [mkMeta, mlookup]
  obtain ⟨vol, aff, hdr⟩ := img
  rw [convert_nii_to_png, if_neg (by simp [hex]), if_neg (by simp [hsuf]),
    hload]
  cases vol with
  | v3 nx ny nz d =>
      dsimp only at hplane ⊢
      obtain ⟨m, rfl⟩ : ∃ m, nz = m + 1 := ⟨nz - 1, by omega⟩
      rw [List.finRange_succ_eq_map, writeLoop_unsupported angle hang]
      exact ⟨rfl, rfl, hsingle⟩
  | v4 nx ny nz nw d =>
      dsimp only at hplane ⊢
      obtain ⟨hz, hw⟩ := hplane
      obtain ⟨k, rfl⟩ : ∃ k, nz = k + 1 := ⟨nz - 1, by omega⟩
      obtain ⟨m, rfl⟩ : ∃ m, nw = m + 1 := ⟨nw - 1, by omega⟩
      rw [List.finRange_succ_eq_map]
      rw [volLoop]
      rw [List.finRange_succ_eq_map, writeLoop_unsupported angle hang]
      exact ⟨rfl, rfl, hsingle⟩

/-- A batch environment loading a 1×1×2×3 all-zero 4-D volume. -/
def envVol4 : BatchEnv :=
  ⟨fun _ => true, id, fun _ => .ok ⟨.v4 1 1 2 3 (fun _ _ _ _ => 0), [], []⟩⟩

/-- Witness for C7 (amended) at concrete inputs: angle 45 gives the
untyped unbound-variable failure in batch mode for a 3-D and for a 4-D
volume, and a completed result in single-slice mode. -/
theorem invalid_angle_not_typed_witness :
    (convert_nii_to_png envVol3 "scan.nii" none 45).2 =
      .error (.unboundLocal unboundMsg) ∧
    writeNames (convert_nii_to_png envVol3 "scan.nii" none 45).1 = [] ∧
    (convert_nii_to_png envVol4 "scan.nii" none 45).2 =
      .error (.unboundLocal unboundMsg) ∧
    writeNames (convert_nii_to_png envVol4 "scan.nii" none 45).1 = [] ∧
    mlookup "analysis_status" (run_tool envConst "scan.nii" 45).2 =
      some (.s "completed") :=
  have h3 := invalid_angle_not_typed envVol3 "scan.nii" none 45
    ⟨.v3 1 1 2 (fun _ _ _ => 0), [], []⟩ rfl (by decide) rfl (by decide)
    (by decide)
  have h4 := invalid_angle_not_typed envVol4 "scan.nii" none 45
    ⟨.v4 1 1 2 3 (fun _ _ _ _ => 0), [], []⟩ rfl (by decide) rfl (by decide)
    (by decide)
  ⟨h3.1, h3.2.1, h4.1, h4.2.1,
   h3.2.2 envConst "scan.nii" 45 (outputPath envConst)
     (mkMeta ⟨.v3 4 4 2 (fun _ _ _ => 7), [], []⟩) rfl⟩

/-- A 1×1×2×2 volume whose (slice 0, volume 0) plane holds 1 and every
other entry 0. -/
def wd : Fin 1 → Fin 1 → Fin 2 → Fin 2 → ℚ :=
  fun _ _ s w => if s.val = 0 ∧ w.val = 0 then 1 else 0

/-- Like `wd` on slice (0,0) but different everywhere else. -/
def wd' : Fin 1 → Fin 1 → Fin 2 → Fin 2 → ℚ :=
  fun _ _ s w => if s.val = 0 ∧ w.val = 0 then 1 else 5

/-- A 1×1×2 3-D volume distinguishing slice 0 from slice 1. -/
def we : Fin 1 → Fin 1 → Fin 2 → ℚ :=
  fun _ _ s => if s.val = 0 then 3 else 4

/-- Witness for C6 at concrete 1×1×2(×2) volumes. -/
theorem select_first_slice_only_witness :
    selectSlice (.v4 1 1 2 2 wd) =
      .ok ⟨1, 1, fun i j => wd i j ⟨0, by decide⟩ ⟨0, by decide⟩⟩ ∧
    selectSlice (.v4 1 1 2 2 wd') = selectSlice (.v4 1 1 2 2 wd) ∧
    selectSlice (.v3 1 1 2 we) =
      .ok ⟨1, 1, fun i j => we i j ⟨0, by decide⟩⟩ :=
  select_first_slice_only wd wd' we (by decide) (by decide) (fun _ _ => rfl)
